import Mathlib

/-!
Verification development for the WeSign conversation-orchestration engine
(`src/orchestrator`).  The Python source is shallowly embedded: pure helpers
become Lean functions on `String`/`List Char`, the per-process mutable state
(`self.conversations`, `self.template_ids`, the MCP client's `template_ids`)
becomes an explicit state record threaded through `processMessage`, and the
outcomes of the external calls (the language-model agent runs, the formatter
run, the backend template fetch, the MCP HTTP exchange) are passed in as
explicit oracle values, so that every claim about the engine's own logic is a
statement about total executable functions.

Embedded components:
 * `forcedToolChoiceCreate`   — `ForcedToolModelClient.create` (tool_choice logic)
 * `selectAgent`              — `WeSignOrchestrator._select_agent`
 * `preprocessTemplateReferences` / `substituteNames`
                              — `WeSignOrchestrator._preprocess_template_references`
 * `classifyError`            — the error-detection block of `process_message`
 * `processMessage`           — `WeSignOrchestrator.process_message`
 * `fetchTemplateMap`, `extractAndStoreTemplateIds`
                              — `_fetch_template_data_from_backend` /
                                `_extract_and_store_template_ids`
 * `rewriteTemplateArgs`, `executeTool`
                              — `WeSignMCPClient.execute_tool`
 * `getConversationHistory`   — `WeSignOrchestrator.get_conversation_history`
-/

/-! ## Character and string utilities

`asciiLower` models Python `str.lower()` restricted to ASCII letters; the
source's keyword sets and regex literals are ASCII or Hebrew, and Hebrew has
no case, so the restriction is observationally faithful on the two supported
scripts.  `isSpaceChar` models `\s` for the ASCII whitespace characters, and
`isWordChar` models `\w` for ASCII alphanumerics, underscore and the Hebrew
letter range (Python's `\w` covers all Unicode word characters; the two
scripts the source supports are covered here). -/

def asciiLower (c : Char) : Char :=
  if 'A' ≤ c ∧ c ≤ 'Z' then Char.ofNat (c.toNat + 32) else c

def lowerList (l : List Char) : List Char := l.map asciiLower

def isSpaceChar (c : Char) : Bool :=
  c = ' ' ∨ c = '\t' ∨ c = '\n' ∨ c = '\r' ∨ c = Char.ofNat 11 ∨ c = Char.ofNat 12

def isWordChar (c : Char) : Bool :=
  c.isAlphanum ∨ c = '_' ∨ (0x5D0 ≤ c.toNat ∧ c.toNat ≤ 0x5EA)

/-- Case-insensitive (ASCII) prefix test: the Python regex engine compiles
every pattern in the source with `re.IGNORECASE`. -/
def ciPrefixB : List Char → List Char → Bool
  | [], _ => true
  | _ :: _, [] => false
  | t :: ts, c :: cs => (asciiLower t = asciiLower c) && ciPrefixB ts cs

/-- Case-insensitive occurrence of `t` as a contiguous substring of `l`. -/
def occursCIB (t : List Char) : List Char → Bool
  | [] => ciPrefixB t []
  | c :: cs => ciPrefixB t (c :: cs) || occursCIB t cs

/-- Case-sensitive substring containment, modelling Python's `in` operator on
strings (used by `_select_agent` and the error string sniffing). -/
def containsSub (t : List Char) : List Char → Bool
  | [] => t.isEmpty
  | c :: cs => t.isPrefixOf (c :: cs) || containsSub t cs

def strContains (hay needle : String) : Bool := containsSub needle.toList hay.toList

/-! ## Association lists modelling Python `dict`

Python dictionaries preserve insertion order; `dictSet` overwrites in place on
an existing key and appends otherwise, exactly like item assignment, and
`dictUpdate` folds `dictSet` over the entries, exactly like `dict.update`. -/

def dictLookup {α : Type} : List (String × α) → String → Option α
  | [], _ => Option.none
  | (k', v) :: rest, k => if k' = k then some v else dictLookup rest k

def dictHasKey {α : Type} (d : List (String × α)) (k : String) : Bool :=
  (dictLookup d k).isSome

def dictSet {α : Type} (d : List (String × α)) (k : String) (v : α) :
    List (String × α) :=
  if d.any (fun p => p.1 = k) then
    d.map (fun p => if p.1 = k then (k, v) else p)
  else
    d ++ [(k, v)]

def dictUpdate {α : Type} (d : List (String × α)) (m : List (String × α)) :
    List (String × α) :=
  m.foldl (fun acc p => dictSet acc p.1 p.2) d

def NoDupKeys {α : Type} (d : List (String × α)) : Prop :=
  (d.map Prod.fst).Nodup

/-! ## Python values

A small model of the Python values the orchestrator inspects: the results of
`ast.literal_eval`, the dictionaries returned by the MCP HTTP server, and
tool-call parameters.  Dictionary keys are restricted to strings, which covers
every value the source constructs or reads. -/

inductive PyVal : Type where
  | pynone : PyVal
  | pybool : Bool → PyVal
  | pyint : Int → PyVal
  | pystr : String → PyVal
  | pylist : List PyVal → PyVal
  | pydict : List (String × PyVal) → PyVal
  deriving Repr

/-- Python truthiness, as used by `if not result.get("success")` and
`if template_map:`. -/
def pyTruthy : PyVal → Bool
  | .pynone => false
  | .pybool b => b
  | .pyint n => n ≠ 0
  | .pystr s => s ≠ ""
  | .pylist xs => ¬ xs.isEmpty
  | .pydict fs => ¬ fs.isEmpty

/-- Python `v == False` (`bool` is an `int` subtype, so `0 == False`). -/
def pyEqFalse : PyVal → Bool
  | .pybool b => !b
  | .pyint n => n = 0
  | _ => false

def pyGet (fields : List (String × PyVal)) (k : String) (dflt : PyVal) : PyVal :=
  (dictLookup fields k).getD dflt

def quoteChar : Char := Char.ofNat 39

def pyQuoted (s : String) : String := String.mk (quoteChar :: s.toList ++ [quoteChar])

-- Python `repr` for the modelled values (string escaping is not modelled;
-- none of the strings the development evaluates contain quotes).
mutual

def pyRepr : PyVal → String
  | .pynone => "None"
  | .pybool b => if b then "True" else "False"
  | .pyint n => toString n
  | .pystr s => pyQuoted s
  | .pylist xs => "[" ++ pyReprList xs ++ "]"
  | .pydict fs => "\x7b" ++ pyReprFields fs ++ "\x7d"

def pyReprList : List PyVal → String
  | [] => ""
  | [x] => pyRepr x
  | x :: xs => pyRepr x ++ ", " ++ pyReprList xs

def pyReprFields : List (String × PyVal) → String
  | [] => ""
  | [(k, v)] => pyQuoted k ++ ": " ++ pyRepr v
  | (k, v) :: fs => pyQuoted k ++ ": " ++ pyRepr v ++ ", " ++ pyReprFields fs

end

/-- Python `str()`, as applied by the f-string `f"{error_prefix}{error_message}"`
and by `str(template_name_or_id)`. -/
def pyStrOf : PyVal → String
  | .pystr s => s
  | v => pyRepr v

/-! ## `ast.literal_eval`

`process_message` attempts `ast.literal_eval(raw_response)` to inspect a tool
result that arrives as a string.  The parser below covers the literal forms
the orchestrator's tool results take: single- or double-quoted strings without
escape sequences, integers, `True`/`False`/`None`, lists and dictionaries
with string keys.  Any other input is a parse failure, which models
`literal_eval` raising (the source then falls back to substring sniffing). -/

def skipWs : List Char → List Char
  | [] => []
  | c :: cs => if isSpaceChar c then skipWs cs else c :: cs

def isQuote (c : Char) : Bool := c = quoteChar ∨ c = '"'

/-- Scan to the closing quote, returning the body and the remainder. -/
def scanQuoted (q : Char) : List Char → Option (List Char × List Char)
  | [] => Option.none
  | c :: cs =>
    if c = q then some ([], cs)
    else match scanQuoted q cs with
      | some (body, rest) => some (c :: body, rest)
      | Option.none => Option.none

def scanDigits : List Char → (List Char × List Char)
  | [] => ([], [])
  | c :: cs =>
    if c.isDigit then
      let (ds, rest) := scanDigits cs
      (c :: ds, rest)
    else ([], c :: cs)

def digitsToNat (ds : List Char) : Nat :=
  ds.foldl (fun acc c => acc * 10 + (c.toNat - 48)) 0

mutual

def parseVal (fuel : Nat) (l : List Char) : Option (PyVal × List Char) :=
  match fuel with
  | 0 => Option.none
  | fuel + 1 =>
    match skipWs l with
    | [] => Option.none
    | c :: cs =>
      if isQuote c then
        match scanQuoted c cs with
        | some (body, rest) => some (.pystr (String.mk body), rest)
        | Option.none => Option.none
      else if c.isDigit then
        let (ds, rest) := scanDigits (c :: cs)
        some (.pyint (digitsToNat ds), rest)
      else if c = '-' then
        match cs with
        | d :: _ =>
          if d.isDigit then
            let (ds, rest) := scanDigits cs
            some (.pyint (-(digitsToNat ds : Int)), rest)
          else Option.none
        | [] => Option.none
      else if ("True".toList).isPrefixOf (c :: cs) then
        some (.pybool true, (c :: cs).drop 4)
      else if ("False".toList).isPrefixOf (c :: cs) then
        some (.pybool false, (c :: cs).drop 5)
      else if ("None".toList).isPrefixOf (c :: cs) then
        some (.pynone, (c :: cs).drop 4)
      else if c = '[' then
        match skipWs cs with
        | ']' :: rest => some (.pylist [], rest)
        | cs' => match parseItems fuel cs' with
          | some (items, rest) =>
            match skipWs rest with
            | ']' :: rest' => some (.pylist items, rest')
            | _ => Option.none
          | Option.none => Option.none
      else if c = '\x7b' then
        match skipWs cs with
        | '\x7d' :: rest => some (.pydict [], rest)
        | cs' => match parseFields fuel cs' with
          | some (fields, rest) =>
            match skipWs rest with
            | '\x7d' :: rest' => some (.pydict fields, rest')
            | _ => Option.none
          | Option.none => Option.none
      else Option.none

def parseItems (fuel : Nat) (l : List Char) : Option (List PyVal × List Char) :=
  match fuel with
  | 0 => Option.none
  | fuel + 1 =>
    match parseVal fuel l with
    | some (v, rest) =>
      match skipWs rest with
      | ',' :: rest' =>
        (match parseItems fuel rest' with
         | some (vs, rest'') => some (v :: vs, rest'')
         | Option.none => Option.none)
      | rest' => some ([v], rest')
    | Option.none => Option.none

def parseFields (fuel : Nat) (l : List Char) :
    Option (List (String × PyVal) × List Char) :=
  match fuel with
  | 0 => Option.none
  | fuel + 1 =>
    match skipWs l with
    | c :: cs =>
      if isQuote c then
        match scanQuoted c cs with
        | some (key, rest) =>
          match skipWs rest with
          | ':' :: rest' =>
            (match parseVal fuel rest' with
             | some (v, rest'') =>
               match skipWs rest'' with
               | ',' :: rest''' =>
                 (match parseFields fuel rest''' with
                  | some (fs, r) => some ((String.mk key, v) :: fs, r)
                  | Option.none => Option.none)
               | r => some ([(String.mk key, v)], r)
             | Option.none => Option.none)
          | _ => Option.none
        | Option.none => Option.none
      else Option.none
    | [] => Option.none

end

/-- `ast.literal_eval` on a whole string: the parse must consume everything
but trailing whitespace. -/
def parsePyLit (s : String) : Option PyVal :=
  match parseVal (s.length + 1) s.toList with
  | some (v, rest) => if (skipWs rest).isEmpty then some v else Option.none
  | Option.none => Option.none

/-! ## The template-name substitution regexes

`_preprocess_template_references` builds, per cached template name, seven
regex patterns (all compiled with `re.IGNORECASE`), finds the first match of
each in the current message, and splices `match.group(0).replace(name, id)`
over the matched span.  Each pattern is a concatenation of word boundaries
(`\b`), literals (the surrounding phrase and the `re.escape`d name), `\s+`
and optional quotes (`["']?`), captured here by `RTok`.  `matchTokens`
reproduces the engine's backtracking order: `\s+` and `["']?` are greedy,
trying the longer alternative first. -/

inductive RTok : Type where
  | wb : RTok
  | lit : List Char → RTok
  | ws : RTok
  | optQ : RTok
  deriving Repr, DecidableEq

/-- `\b`: a word/non-word transition (string edges count as non-word). -/
def boundaryAt (prev : Option Char) (cur : Option Char) : Bool :=
  (prev.elim false isWordChar) != (cur.elim false isWordChar)

/-- Length of the leading whitespace run. -/
def wsRun : List Char → Nat
  | [] => 0
  | c :: cs => if isSpaceChar c then wsRun cs + 1 else 0

/-- Match a token sequence at the head of `l`; `prev` is the character just
before the current position (for `\b`).  Returns the number of characters
consumed by the first successful backtracking alternative. -/
def matchTokens : List RTok → Option Char → List Char → Option Nat
  | [], _, _ => some 0
  | .wb :: rest, prev, l =>
    if boundaryAt prev l.head? then matchTokens rest prev l else Option.none
  | .lit t :: rest, prev, l =>
    if ciPrefixB t l then
      (matchTokens rest (if t.isEmpty then prev else (l.take t.length).getLast?)
        (l.drop t.length)).map (· + t.length)
    else Option.none
  | .ws :: rest, _, l =>
    -- greedy `\s+`: try the full run first, then shorter non-empty runs
    (List.range (wsRun l)).findSome? (fun d =>
      let j := wsRun l - d
      (matchTokens rest ((l.take j).getLast?) (l.drop j)).map (· + j))
  | .optQ :: rest, prev, l =>
    match l with
    | c :: cs =>
      if isQuote c then
        ((matchTokens rest (some c) cs).map (· + 1)).orElse
          (fun _ => matchTokens rest prev (c :: cs))
      else matchTokens rest prev (c :: cs)
    | [] => matchTokens rest prev []

/-- Leftmost match: scan positions left to right (`re.finditer`'s first
match).  Returns (start index, matched length). -/
def scanMatchAux (pat : List RTok) : Option Char → List Char → Option (Nat × Nat)
  | prev, l =>
    match matchTokens pat prev l with
    | some k => some (0, k)
    | Option.none =>
      match l with
      | [] => Option.none
      | c :: cs => (scanMatchAux pat (some c) cs).map (fun r => (r.1 + 1, r.2))

def scanMatch (pat : List RTok) (l : List Char) : Option (Nat × Nat) :=
  scanMatchAux pat Option.none l

/-- The seven surrounding-phrase patterns for one template name, in source
order (`re.escape(template_name)` makes the name a literal). -/
def patternsFor (name : List Char) : List (List RTok) :=
  [ [.wb, .lit "template".toList, .ws, .optQ, .lit name, .optQ, .wb],
    [.wb, .lit "from".toList, .ws, .lit "template".toList, .ws, .optQ, .lit name, .optQ, .wb],
    [.wb, .lit "template".toList, .ws, .lit "named".toList, .ws, .optQ, .lit name, .optQ, .wb],
    [.wb, .lit "my".toList, .ws, .optQ, .lit name, .optQ, .ws, .lit "template".toList, .wb],
    [.wb, .lit "the".toList, .ws, .optQ, .lit name, .optQ, .ws, .lit "template".toList, .wb],
    [.wb, .lit "תבנית".toList, .ws, .optQ, .lit name, .optQ, .wb],
    [.wb, .lit "מתבנית".toList, .ws, .optQ, .lit name, .optQ, .wb] ]

/-- Python `str.replace(old, new)`: every non-overlapping occurrence, left to
right, case-sensitively (`original_text.replace(template_name, template_id)`).
The `old = ""` case inserts `new` at every position, as Python does. -/
def interleaveNew (new : List Char) : List Char → List Char
  | [] => new
  | c :: cs => new ++ c :: interleaveNew new cs

def pyReplaceAux (old new : List Char) : Nat → List Char → List Char
  | _, [] => []
  | 0, s => s
  | fuel + 1, c :: cs =>
    if old.isPrefixOf (c :: cs) then
      new ++ pyReplaceAux old new fuel (cs.drop (old.length - 1))
    else
      c :: pyReplaceAux old new fuel cs

def pyReplace (s old new : List Char) : List Char :=
  if old.isEmpty then interleaveNew new s
  else pyReplaceAux old new s.length s

/-- One `for match in re.finditer(...): ...; break` step: replace the name by
the id inside the first matched span and splice the span back. -/
def applyPattern (name id : List Char) (pat : List RTok) (s : List Char) :
    List Char :=
  match scanMatch pat s with
  | Option.none => s
  | some (i, k) =>
    s.take i ++ pyReplace ((s.drop i).take k) name id ++ s.drop (i + k)

/-- The inner pattern loop for one cached (name, id) pair. -/
def applyName (name id : List Char) (s : List Char) : List Char :=
  (patternsFor name).foldl (fun acc pat => applyPattern name id pat acc) s

/-- The loop over `template_ids.items()` (insertion order). -/
def substituteNames (tids : List (String × String)) (message : String) : String :=
  String.mk (tids.foldl (fun acc p => applyName p.1.toList p.2.toList acc)
    message.toList)

/-- `WeSignOrchestrator._preprocess_template_references`: a message is left
unchanged when the conversation has no cached mapping (or an empty one). -/
def preprocessTemplateReferences (templateIds : List (String × List (String × String)))
    (conversationId message : String) : String :=
  match dictLookup templateIds conversationId with
  | Option.none => message
  | some tids => if tids.isEmpty then message else substituteNames tids message

/-! ## Router: `WeSignOrchestrator._select_agent`

`message_lower = message.lower()`; each keyword set is tested in source order
with `word in message_lower or word in message` (the signing set tests only
`message_lower`), and the first matching set wins, with `admin` as the final
default.  `str.lower()` is modelled by ASCII lowering, which agrees with
Python on the source's ASCII/Hebrew keyword sets. -/

inductive Agent : Type where
  | contact : Agent
  | signing : Agent
  | template : Agent
  | admin : Agent
  | document : Agent
  deriving Repr, DecidableEq

def contactKeywords : List String :=
  ["contact", "contacts", "address book", "create contact",
   "איש קשר", "איש הקשר", "אנשי קשר", "אנשי הקשר",
   "ספר כתובות", "ספר הכתובות", "קבוצה", "קבוצת", "הקבוצה"]

def signingKeywords : List String :=
  ["sign", "signature", "signing", "sign document", "add signature",
   "חתימה", "לחתום", "חתימה דיגיטלית"]

def templateKeywords : List String :=
  ["template", "templates", "use template", "create template",
   "תבנית", "תבניות", "התבנית", "התבניות", "טמפלט", "טמפלטים"]

def adminKeywords : List String :=
  ["user info", "my info", "my information", "user information", "account",
   "profile", "settings", "preferences", "משתמש", "חשבון", "פרופיל", "הגדרות"]

def documentKeywords : List String :=
  ["upload", "document", "documents", "pdf", "list documents",
   "מסמך", "מסמכים", "המסמך", "המסמכים"]

/-- `word in message_lower or word in message`. -/
def keywordHitBoth (message : String) (w : String) : Bool :=
  containsSub w.toList (lowerList message.toList) || containsSub w.toList message.toList

/-- `word in message_lower` (the signing keyword test in the source). -/
def keywordHitLower (message : String) (w : String) : Bool :=
  containsSub w.toList (lowerList message.toList)

def selectAgent (message : String) : Agent :=
  if contactKeywords.any (keywordHitBoth message) then .contact
  else if signingKeywords.any (keywordHitLower message) then .signing
  else if templateKeywords.any (keywordHitBoth message) then .template
  else if adminKeywords.any (keywordHitBoth message) then .admin
  else if documentKeywords.any (keywordHitBoth message) then .document
  else .admin

/-- The routing rules as an explicit ordered table (spec §4.1, §9): a
predicate together with the domain it selects. -/
def routerRuleTable : List ((String → Bool) × Agent) :=
  [ (fun m => contactKeywords.any (keywordHitBoth m), .contact),
    (fun m => signingKeywords.any (keywordHitLower m), .signing),
    (fun m => templateKeywords.any (keywordHitBoth m), .template),
    (fun m => adminKeywords.any (keywordHitBoth m), .admin),
    (fun m => documentKeywords.any (keywordHitBoth m), .document) ]

/-- First-matching-rule evaluation with the default domain `admin`. -/
def firstMatchingRule : List ((String → Bool) × Agent) → String → Agent
  | [], _ => .admin
  | r :: rs, m => if r.1 m then r.2 else firstMatchingRule rs m

/-! ## `ForcedToolModelClient.create`

The override forwards `tool_choice` to the parent `create` after the single
rewrite `if len(tools) > 0 and tool_choice == "auto": tool_choice =
"required"`.  Only the forwarded choice is modelled; tools are represented by
their names. -/

inductive PyToolChoice : Type where
  | auto : PyToolChoice
  | required : PyToolChoice
  | noTool : PyToolChoice          -- the literal "none"
  | specific : String → PyToolChoice  -- a concrete `Tool` argument
  deriving Repr, DecidableEq

def forcedToolChoiceCreate (tools : List String) (toolChoice : PyToolChoice) :
    PyToolChoice :=
  if 0 < tools.length ∧ toolChoice = .auto then .required else toolChoice

/-! ## `WeSignMCPClient.execute_tool`

The client keeps `self.template_ids : {conversation_id: {name: guid}}`.
Before dispatch, for the four template tools, a `templateId` argument whose
`str()` contains no hyphen is looked up in the mappings of *all* conversations
(first hit in insertion order wins) and replaced by the guid found.  The HTTP
exchange itself is an oracle: a structured JSON reply, an HTTP status error,
or any other exception. -/

def templateToolNames : List String :=
  ["wesign_use_template", "wesign_send_simple_document",
   "wesign_get_template", "wesign_update_template_fields"]

/-- The `for conv_id, mappings in self.template_ids.items()` search:
first conversation containing the name wins (`break`). -/
def findGuidAnyConversation (templateIds : List (String × List (String × String)))
    (name : String) : Option String :=
  templateIds.findSome? (fun p => dictLookup p.2 name)

def rewriteTemplateArgs (templateIds : List (String × List (String × String)))
    (toolName : String) (args : List (String × PyVal)) : List (String × PyVal) :=
  if (templateToolNames.contains toolName ∧ dictHasKey args "templateId") then
    match dictLookup args "templateId" with
    | some v =>
      if ¬ (pyStrOf v).toList.contains '-' then
        match v with
        | .pystr name =>
          (match findGuidAnyConversation templateIds name with
           | some guid => dictSet args "templateId" (.pystr guid)
           | Option.none => args)
        | _ => args   -- a non-string key is never found in the string-keyed mappings
      else args
    | Option.none => args
  else args

/-- The HTTP exchange as observed by `execute_tool`'s `try` block. -/
inductive HttpOutcome : Type where
  | ok : List (String × PyVal) → HttpOutcome   -- 2xx with a JSON object body
  | statusError : Nat → String → HttpOutcome   -- `httpx.HTTPStatusError`
  | exn : String → HttpOutcome                 -- any other exception
  deriving Repr

def executeTool (templateIds : List (String × List (String × String)))
    (toolName : String) (args : List (String × PyVal)) (http : HttpOutcome) :
    PyVal :=
  let _sentArgs := rewriteTemplateArgs templateIds toolName args
  match http with
  | .statusError code text =>
    .pydict [("error", .pystr ("HTTP " ++ toString code ++ ": " ++ text)),
             ("success", .pybool false)]
  | .exn msg =>
    .pydict [("error", .pystr msg), ("success", .pybool false)]
  | .ok fields =>
    if ¬ pyTruthy (pyGet fields "success" .pynone) then
      .pydict [("error", pyGet fields "error" (.pystr "Unknown error")),
               ("success", .pybool false)]
    else
      pyGet fields "data" (.pydict fields)

/-! ## Orchestrator data model and `process_message`

The per-process mutable state is threaded explicitly.  The outcomes of the
external calls are oracle inputs:

 * `agent`     — `agent.run(...)`: either an exception (message) or the pair of
   the `ToolCallRequestEvent` function calls (name, parsed JSON arguments) and
   the final `_extract_response` string;
 * `formatter` — the reflection `formatter_agent.run(...)`: exception or the
   extracted response text (an exception here escapes to the top-level
   handler, exactly as in the source);
 * `fetchRows` — `_fetch_template_data_from_backend`: `Option.none` models any
   exception inside that helper (it catches and returns `{}`), `some rows`
   the `(name, templateId)` rows of the backend reply;
 * `freshId`/`now` — `f"conv-{user_id}-{datetime.now().timestamp()}"` and the
   turn timestamps. -/

structure ToolCallRecord : Type where
  tool : String
  action : String
  parameters : List (String × PyVal)
  result : String
  deriving Repr

structure Turn : Type where
  role : String
  content : String
  toolCalls : Option (List ToolCallRecord)
  timestamp : String
  deriving Repr

structure OrchState : Type where
  conversations : List (String × List Turn)
  templateIds : List (String × List (String × String))
  clientTemplateIds : List (String × List (String × String))
  deriving Repr

def OrchState.empty : OrchState := ⟨[], [], []⟩

structure PMInput : Type where
  message : String
  userId : String
  companyId : String
  userName : String
  conversationId : Option String
  files : List (String × String)   -- (fileName, filePath)
  deriving Repr

structure CallOracles : Type where
  agent : Except String (List (String × List (String × PyVal)) × String)
  formatter : Except String String
  fetchRows : Option (List (String × String))
  freshId : String
  now : String

structure PMResult : Type where
  response : String
  conversationId : String
  toolCalls : List ToolCallRecord
  metaAgent : Option Agent         -- metadata["agent"] (success path only)
  metaError : Option String        -- metadata["error"] (exception path only)
  formatterUsed : Bool             -- embedding flag: the reflection run happened
  deriving Repr

/-- `WeSignOrchestrator._detect_hebrew`: `set(range(0x0590, 0x05FF))`, so the
Python `range` excludes U+05FF. -/
def detectHebrew (text : String) : Bool :=
  text.toList.any (fun c => 0x0590 ≤ c.toNat ∧ c.toNat < 0x05FF)

/-- The error-detection block of `process_message`: parse `raw_response` with
`ast.literal_eval`; in a parsed dict, `'error' in response_dict or
response_dict.get('success') == False` flags an error with message
`response_dict.get('error', 'Tool execution failed')`; if parsing raises, the
raw string is sniffed for `"error"`/`"failed"` and becomes the message
itself.  Returns the error message value when an error is detected. -/
def classifyError (raw : String) : Option PyVal :=
  match parsePyLit raw with
  | some (.pydict fields) =>
    if dictHasKey fields "error" ∨ pyEqFalse (pyGet fields "success" .pynone) then
      some (pyGet fields "error" (.pystr "Tool execution failed"))
    else Option.none
  | some _ => Option.none
  | Option.none =>
    if containsSub "error".toList (lowerList raw.toList) ∨
       containsSub "failed".toList (lowerList raw.toList) then
      some (.pystr raw)
    else Option.none

/-- `_fetch_template_data_from_backend`'s extraction loop: rows with a falsy
name or id are skipped, later rows overwrite earlier ones
(`template_map[template_name] = str(template_id)`). -/
def fetchTemplateMap (rows : List (String × String)) : List (String × String) :=
  rows.foldl (fun acc p =>
    if p.1 ≠ "" ∧ p.2 ≠ "" then dictSet acc p.1 p.2 else acc) []

def templateCallToolNames : List String :=
  ["wesign_list_templates", "wesign_get_template", "wesign_create_template"]

/-- `_extract_and_store_template_ids`: on a template-related call, ensure the
conversation has an entry, merge (`dict.update`) the fetched map into it when
the fetch returned anything, and push the merged map to the MCP client
(`update_template_mappings` replaces the client's entry).  Exceptions inside
the backend fetch are modelled by `fetchRows = Option.none` (the helper
returns `{}`). -/
def extractAndStoreTemplateIds (st : OrchState)
    (toolCalls : List ToolCallRecord) (fetchRows : Option (List (String × String)))
    (conversationId : String) : OrchState :=
  let isTemplateCall :=
    toolCalls.any (fun c => templateCallToolNames.contains c.tool)
  if ¬ isTemplateCall then st
  else
    let tids := if dictHasKey st.templateIds conversationId then st.templateIds
                else dictSet st.templateIds conversationId []
    let fetched := fetchTemplateMap (fetchRows.getD [])
    if fetched.isEmpty then { st with templateIds := tids }
    else
      let merged := dictUpdate ((dictLookup tids conversationId).getD []) fetched
      { st with
        templateIds := dictSet tids conversationId merged,
        clientTemplateIds := dictSet st.clientTemplateIds conversationId merged }

def errorResponseText (e : String) : String :=
  "I encountered an error: " ++ e ++ ". Please try again."

def hebrewErrorWord : String := "שגיאה: "

def errorPrefixFor (message : String) : String :=
  if detectHebrew message then hebrewErrorWord else "Error: "

/-- Append the user turn and the assistant turn (`self.conversations[...]
.append(...)`, twice). -/
def appendTurns (conversations : List (String × List Turn))
    (conversationId : String) (userContent responseText : String)
    (toolCalls : List ToolCallRecord) (now : String) :
    List (String × List Turn) :=
  dictSet conversations conversationId
    (((dictLookup conversations conversationId).getD []) ++
      [⟨"user", userContent, Option.none, now⟩,
       ⟨"assistant", responseText, some toolCalls, now⟩])

/-- `WeSignOrchestrator.process_message`.  The top-level `try`/`except` is the
outermost match: the two awaited agent runs are the operations that can raise
into it; every helper with an internal `try`/`except` is modelled as total. -/
def processMessage (st : OrchState) (inp : PMInput) (o : CallOracles) :
    PMResult × OrchState :=
  let convId := match inp.conversationId with
    | some c => if c = "" then o.freshId else c
    | Option.none => o.freshId
  let fullMessage0 := if ¬ inp.files.isEmpty then
      inp.message ++ "\n\nAttached files:\n" ++
        String.join (inp.files.map (fun f => "- " ++ f.1 ++ " (at " ++ f.2 ++ ")\n"))
    else inp.message
  let fullMessage := preprocessTemplateReferences st.templateIds convId fullMessage0
  let agentChoice := selectAgent fullMessage
  let st1 : OrchState :=
    { st with conversations :=
        if dictHasKey st.conversations convId then st.conversations
        else dictSet st.conversations convId [] }
  match o.agent with
  | .error e =>
    ({ response := errorResponseText e, conversationId := convId,
       toolCalls := [], metaAgent := Option.none, metaError := some e,
       formatterUsed := false }, st1)
  | .ok (events, raw) =>
    let toolCalls : List ToolCallRecord :=
      events.map (fun ev => ⟨ev.1, "execute", ev.2, "completed"⟩)
    if toolCalls.isEmpty then
      ({ response := raw, conversationId := convId, toolCalls := toolCalls,
         metaAgent := some agentChoice, metaError := Option.none,
         formatterUsed := false },
       { st1 with conversations :=
           appendTurns st1.conversations convId inp.message raw toolCalls o.now })
    else
      match classifyError raw with
      | some errVal =>
        let responseText := errorPrefixFor inp.message ++ pyStrOf errVal
        ({ response := responseText, conversationId := convId,
           toolCalls := toolCalls, metaAgent := some agentChoice,
           metaError := Option.none, formatterUsed := false },
         { st1 with conversations :=
             (appendTurns st1.conversations convId inp.message responseText
               toolCalls o.now) })
      | Option.none =>
        let st2 := extractAndStoreTemplateIds st1 toolCalls o.fetchRows convId
        match o.formatter with
        | .error e =>
          ({ response := errorResponseText e, conversationId := convId,
             toolCalls := [], metaAgent := Option.none, metaError := some e,
             formatterUsed := false }, st2)
        | .ok text =>
          ({ response := text, conversationId := convId, toolCalls := toolCalls,
             metaAgent := some agentChoice, metaError := Option.none,
             formatterUsed := true },
           { st2 with conversations :=
               (appendTurns st2.conversations convId inp.message text
                 toolCalls o.now) })

/-- `WeSignOrchestrator.get_conversation_history`. -/
def getConversationHistory (st : OrchState) (conversationId : String) :
    List Turn :=
  (dictLookup st.conversations conversationId).getD []

/-- Processing a sequence of requests against one orchestrator. -/
def runCalls (st : OrchState) : List (PMInput × CallOracles) → OrchState
  | [] => st
  | c :: cs => runCalls (processMessage st c.1 c.2).2 cs

/-! ## General lemmas -/

theorem string_append_data (a b : String) : (a ++ b).data = a.data ++ b.data := by
  cases a; cases b; rfl

theorem prefixed_ne_empty (a b : String) (h : a.data ≠ []) : a ++ b ≠ "" := by
  intro he
  have hd := congrArg String.data he
  rw [string_append_data] at hd
  exact h (List.append_eq_nil.mp hd).1

/-- C1 (amended): `ForcedToolModelClient.create` cannot silently skip tool
invocation in the deployed call path: whenever it is called with a non-empty
tools sequence and the default advisory `tool_choice="auto"`, the choice
forwarded to the underlying client is `"required"`; an explicitly passed
non-`"auto"` choice is forwarded unchanged. -/
theorem c1_thm (tools : List String) (tc : PyToolChoice) :
    (tools ≠ [] → tc = .auto → forcedToolChoiceCreate tools tc = .required) ∧
    (tc ≠ .auto → forcedToolChoiceCreate tools tc = tc) := by
  constructor
  · intro hne hauto
    have hl : 0 < tools.length := List.length_pos.mpr hne
    simp [forcedToolChoiceCreate, hl, hauto]
  · intro hna
    simp [forcedToolChoiceCreate, hna]

/-- C1, counterexample to the claim as stated: with a non-empty tools
sequence but an explicit `tool_choice="none"`, `create` forwards `"none"`,
not `"required"` — the rewrite in the source fires only when the incoming
choice is `"auto"`. -/
theorem c1_counterexample :
    forcedToolChoiceCreate ["wesign_list_documents"] PyToolChoice.noTool =
      PyToolChoice.noTool ∧ PyToolChoice.noTool ≠ PyToolChoice.required := by
  constructor
  · rfl
  · decide

/-- C1, witness: the amended theorem applied at a concrete non-empty tool
list with the default `"auto"` choice. -/
theorem c1_witness :
    forcedToolChoiceCreate ["wesign_list_documents"] PyToolChoice.auto =
      PyToolChoice.required :=
  (c1_thm ["wesign_list_documents"] PyToolChoice.auto).1 (by decide) rfl

/-- C8 (amended): message-level name→identifier substitution is scoped to
the owning conversation: two template-id stores that agree on the
conversation's own mapping produce identical substituted messages, whatever
the other conversations' cache entries are.  The correction: the MCP
client's tool-argument rewriting is not so scoped — it searches every
conversation's mappings (see the counterexample). -/
theorem c8_thm (S1 S2 : List (String × List (String × String)))
    (conv m : String) (h : dictLookup S1 conv = dictLookup S2 conv) :
    preprocessTemplateReferences S1 conv m = preprocessTemplateReferences S2 conv m := by
  unfold preprocessTemplateReferences
  rw [h]

/-- C8, witness: the amended theorem applied to two concrete stores that
differ only in another conversation's entries. -/
theorem c8_witness :
    preprocessTemplateReferences [("convA", [("NDA", "g-1")])] "convA" "use template NDA" =
      preprocessTemplateReferences
        [("convA", [("NDA", "g-1")]), ("convB", [("Other", "g-2")])] "convA"
        "use template NDA" :=
  c8_thm _ _ "convA" "use template NDA" rfl

/-- C8, counterexample to the claim as stated: two MCP-client states agree
on conversation `"convA"`'s (empty) mapping and differ only in `"convB"`'s
entries, yet `execute_tool`'s template-argument rewriting for the same call
produces different substituted arguments — the rewrite searches all
conversations' mappings, so the entity mapping is not scoped exclusively to
its owning conversation. -/
theorem c8_counterexample :
    dictLookup [("convA", ([] : List (String × String))), ("convB", [("NDA", "guid-b")])] "convA" =
      dictLookup [("convA", ([] : List (String × String))), ("convB", [])] "convA" ∧
    dictLookup (rewriteTemplateArgs [("convA", []), ("convB", [("NDA", "guid-b")])]
      "wesign_use_template" [("templateId", .pystr "NDA")]) "templateId" =
        some (.pystr "guid-b") ∧
    dictLookup (rewriteTemplateArgs [("convA", []), ("convB", [])]
      "wesign_use_template" [("templateId", .pystr "NDA")]) "templateId" =
        some (.pystr "NDA") ∧
    (PyVal.pystr "guid-b") ≠ (PyVal.pystr "NDA") := by
  refine ⟨rfl, rfl, rfl, ?_⟩
  simp

/-- C10 (amended): `execute_tool` returns errors as values (the embedding is
a total function): an HTTP status error yields a failure dict with the
non-empty `"HTTP <code>: <text>"` error string, any other exception yields a
failure dict carrying the exception text (non-empty when that text is),
a structured non-success reply yields a failure dict carrying the server's
error field — defaulting to `"Unknown error"` when the field is absent —
and a successful structured reply yields its data payload.  The correction:
the error string is empty when the server itself sends an empty error field
(see the counterexample). -/
theorem c10_thm (tids : List (String × List (String × String)))
    (tool : String) (args : List (String × PyVal)) (http : HttpOutcome) :
    (∀ code text, http = .statusError code text →
      ∃ s, executeTool tids tool args http =
          .pydict [("error", .pystr s), ("success", .pybool false)] ∧ s ≠ "") ∧
    (∀ msg, http = .exn msg → msg ≠ "" →
      ∃ s, executeTool tids tool args http =
          .pydict [("error", .pystr s), ("success", .pybool false)] ∧ s ≠ "") ∧
    (∀ fields, http = .ok fields → ¬ pyTruthy (pyGet fields "success" .pynone) →
      executeTool tids tool args http =
        .pydict [("error", pyGet fields "error" (.pystr "Unknown error")),
                 ("success", .pybool false)] ∧
      (dictLookup fields "error" = Option.none →
        pyGet fields "error" (.pystr "Unknown error") = .pystr "Unknown error")) ∧
    (∀ fields, http = .ok fields → pyTruthy (pyGet fields "success" .pynone) →
      executeTool tids tool args http = pyGet fields "data" (.pydict fields)) := by
  refine ⟨?_, ?_, ?_, ?_⟩
  · rintro code text rfl
    refine ⟨"HTTP " ++ toString code ++ ": " ++ text, rfl, ?_⟩
    intro h
    exact prefixed_ne_empty "HTTP " (toString code ++ ": " ++ text) (by decide)
      (by simpa [String.append_assoc] using h)
  · rintro msg rfl hne
    exact ⟨msg, rfl, hne⟩
  · rintro fields rfl hns
    constructor
    · simp [executeTool, hns]
    · intro hl; simp [pyGet, hl]
  · rintro fields rfl hs
    simp [executeTool, hs]

/-- C10, witness: the amended theorem applied to a concrete HTTP 400
status error. -/
theorem c10_witness :
    ∃ s, executeTool [] "wesign_list_documents" [] (.statusError 400 "Bad Request") =
        .pydict [("error", .pystr s), ("success", .pybool false)] ∧ s ≠ "" :=
  (c10_thm [] "wesign_list_documents" [] (.statusError 400 "Bad Request")).1
    400 "Bad Request" rfl

/-- C10, counterexample to the claim as stated: a structured reply with
`success == false` and an empty `error` field produces a failure value whose
error string is empty, contradicting "a non-empty error string". -/
theorem c10_counterexample :
    executeTool [] "wesign_use_template" []
      (.ok [("success", .pybool false), ("error", .pystr "")]) =
      .pydict [("error", .pystr ""), ("success", .pybool false)] ∧
    ("" : String).isEmpty = true := ⟨rfl, rfl⟩

/-- C6: `process_message` always returns a well-formed result (the embedding
is a total function into the result record): a provided non-empty
conversation id is echoed back, and whenever an internal exception occurred
at any stage (`metadata["error"]` is set), the returned tool-call list is
empty and the response holds the explanatory
`"I encountered an error: ..."` message. -/
theorem c6_thm (st : OrchState) (inp : PMInput) (o : CallOracles) :
    (∀ c, inp.conversationId = some c → c ≠ "" →
      ((processMessage st inp o).1).conversationId = c) ∧
    (∀ e, ((processMessage st inp o).1).metaError = some e →
      ((processMessage st inp o).1).toolCalls = [] ∧
      ((processMessage st inp o).1).response = errorResponseText e) := by
  unfold processMessage
  rcases o with ⟨agent, formatter, fetchRows, freshId, now⟩
  constructor
  · intro c hc hne
    simp only [hc]
    rcases agent with e | ⟨events, raw⟩
    · simp [hne]
    · simp only []
      split
      · simp [hne]
      · split
        · simp [hne]
        · rcases formatter with e | text
          · simp [hne]
          · simp [hne]
  · intro e he
    rcases agent with e' | ⟨events, raw⟩
    · simp only [] at he ⊢
      simp at he
      subst he
      · exact ⟨trivial, rfl⟩
    · simp only [] at he ⊢
      revert he
      split
      · intro he; simp at he
      · split
        · intro he; simp at he
        · rcases formatter with e' | text
          · intro he
            simp at he
            subst he
            simp
          · intro he; simp at he

/-- C6, witness: the theorem applied to a concrete run whose agent call
raises. -/
theorem c6_witness :
    ((processMessage OrchState.empty
        ⟨"hello", "u1", "co1", "name1", some "conv1", []⟩
        ⟨.error "boom", .ok "txt", Option.none, "fresh1", "t0"⟩).1).conversationId
      = "conv1" ∧
    ((processMessage OrchState.empty
        ⟨"hello", "u1", "co1", "name1", some "conv1", []⟩
        ⟨.error "boom", .ok "txt", Option.none, "fresh1", "t0"⟩).1).toolCalls = [] ∧
    ((processMessage OrchState.empty
        ⟨"hello", "u1", "co1", "name1", some "conv1", []⟩
        ⟨.error "boom", .ok "txt", Option.none, "fresh1", "t0"⟩).1).response
      = errorResponseText "boom" :=
  ⟨(c6_thm OrchState.empty
      ⟨"hello", "u1", "co1", "name1", some "conv1", []⟩
      ⟨.error "boom", .ok "txt", Option.none, "fresh1", "t0"⟩).1 "conv1" rfl
      (by decide),
   (c6_thm OrchState.empty
      ⟨"hello", "u1", "co1", "name1", some "conv1", []⟩
      ⟨.error "boom", .ok "txt", Option.none, "fresh1", "t0"⟩).2 "boom" rfl⟩

/-- C2 (amended): for every request whose tool outcome is classified as a
failure by `process_message`'s error check, the returned response text is
exactly the error message prefixed with `"Error: "` (or the Hebrew prefix
when the original message contains Hebrew characters), the
reflection/formatter step is not invoked (the whole result is independent of
the formatter oracle), and every `ToolCallRecord` of the response carries the
constant request-time marker `"completed"` — not a failure status, which is
the correction to the claim. -/
theorem c2_thm (st : OrchState) (inp : PMInput) (o : CallOracles)
    (events : List (String × List (String × PyVal))) (raw : String)
    (errVal : PyVal) (hag : o.agent = .ok (events, raw)) (hne : events ≠ [])
    (herr : classifyError raw = some errVal) :
    ((processMessage st inp o).1).response =
      errorPrefixFor inp.message ++ pyStrOf errVal ∧
    ((processMessage st inp o).1).formatterUsed = false ∧
    (∀ f, processMessage st inp { o with formatter := f } =
      processMessage st inp o) ∧
    (∀ rec ∈ ((processMessage st inp o).1).toolCalls, rec.result = "completed") := by
  have hme : (events.map (fun ev =>
      (⟨ev.1, "execute", ev.2, "completed"⟩ : ToolCallRecord))).isEmpty = false := by
    cases events with
    | nil => exact absurd rfl hne
    | cons a l => rfl
  refine ⟨?_, ?_, ?_, ?_⟩
  · unfold processMessage
    rw [hag]
    simp only [hme, Bool.false_eq_true, if_false, herr]
  · unfold processMessage
    rw [hag]
    simp only [hme, Bool.false_eq_true, if_false, herr]
  · intro f
    unfold processMessage
    simp only []
    rw [hag]
    simp only [hme, Bool.false_eq_true, if_false, herr]
  · intro rec hrec
    unfold processMessage at hrec
    rw [hag] at hrec
    simp only [hme, Bool.false_eq_true, if_false, herr] at hrec
    rcases List.mem_map.mp hrec with ⟨ev, _, rfl⟩
    rfl

def c2Inp : PMInput := ⟨"list my documents", "u1", "co1", "name1", some "conv1", []⟩

def c2FailRaw : String := "\x7b\"success\": False, \"error\": \"permission denied\"\x7d"

def c2FailOracles : CallOracles :=
  ⟨.ok ([("wesign_list_documents", [])], c2FailRaw), .ok "FORMATTED",
   Option.none, "fresh1", "t0"⟩

def c2SuccOracles : CallOracles :=
  ⟨.ok ([("wesign_list_documents", [])], "\x7b\"success\": True, \"data\": []\x7d"),
   .ok "FORMATTED", Option.none, "fresh1", "t0"⟩

/-- C2, counterexample to the claim as stated: on Scenario D's failing tool
outcome the response is `"Error: permission denied"`, but the recorded tool
call carries `result = "completed"`, identical to the marker of a successful
run of the same tool — `_extract_tool_calls` hardcodes `"completed"`, so the
record does not carry a failure status. -/
theorem c2_counterexample :
    ((processMessage OrchState.empty c2Inp c2FailOracles).1).response =
      "Error: permission denied" ∧
    ((processMessage OrchState.empty c2Inp c2FailOracles).1).toolCalls.map
      ToolCallRecord.result = ["completed"] ∧
    ((processMessage OrchState.empty c2Inp c2SuccOracles).1).toolCalls.map
      ToolCallRecord.result = ["completed"] ∧
    ((processMessage OrchState.empty c2Inp c2SuccOracles).1).formatterUsed = true :=
  ⟨rfl, rfl, rfl, rfl⟩

/-- C2, witness: the amended theorem applied to the concrete Scenario D
failure run. -/
theorem c2_witness :
    ((processMessage OrchState.empty c2Inp c2FailOracles).1).response =
      errorPrefixFor "list my documents" ++ pyStrOf (.pystr "permission denied") ∧
    ((processMessage OrchState.empty c2Inp c2FailOracles).1).formatterUsed = false :=
  ⟨(c2_thm OrchState.empty c2Inp c2FailOracles
      [("wesign_list_documents", [])] c2FailRaw (.pystr "permission denied")
      rfl (List.cons_ne_nil _ _) rfl).1,
   (c2_thm OrchState.empty c2Inp c2FailOracles
      [("wesign_list_documents", [])] c2FailRaw (.pystr "permission denied")
      rfl (List.cons_ne_nil _ _) rfl).2.1⟩

/-- C5: `_select_agent` is a deterministic, total, pure function of the
message text, equal to first-match evaluation of the ordered rule table
contact > signing > template > admin-keyword-set > document, and returns the
default domain `admin` for every message matching no rule. -/
theorem c5_thm (m : String) :
    selectAgent m = firstMatchingRule routerRuleTable m ∧
    ((∀ r ∈ routerRuleTable, r.1 m = false) → selectAgent m = .admin) := by
  constructor
  · rfl
  · intro h
    simp only [routerRuleTable, List.forall_mem_cons, List.forall_mem_nil,
      and_true] at h
    obtain ⟨h1, h2, h3, h4, h5⟩ := h
    simp [selectAgent, h1, h2, h3, h4, h5]

/-- C5, witness: a concrete keyword-free message is routed to the default
domain `admin`. -/
theorem c5_witness : selectAgent "hello" = Agent.admin :=
  (c5_thm "hello").2 (by decide)


theorem lookup_mapSet_self {α : Type} (k : String) (v : α) (d : List (String × α))
    (h : d.any (fun p => p.1 = k) = true) :
    dictLookup (d.map (fun p => if p.1 = k then (k, v) else p)) k = some v := by
  induction d with
  | nil => simp at h
  | cons p rest ih =>
    obtain ⟨a, b⟩ := p
    by_cases hp : a = k
    · rw [List.map_cons]
      simp only [if_pos hp]
      simp [dictLookup]
    · rw [List.map_cons]
      simp only [if_neg hp]
      simp only [dictLookup, if_neg hp]
      apply ih
      simpa [hp] using h

theorem lookup_mapSet_other {α : Type} (k k' : String) (v : α)
    (hk : k' ≠ k) (d : List (String × α)) :
    dictLookup (d.map (fun p => if p.1 = k then (k, v) else p)) k' =
      dictLookup d k' := by
  induction d with
  | nil => rfl
  | cons p rest ih =>
    obtain ⟨a, b⟩ := p
    by_cases hp : a = k
    · have h1 : ¬ (k = k') := fun he => hk he.symm
      have h2 : ¬ (a = k') := fun he => hk (hp ▸ he : (k : String) = k').symm
      rw [List.map_cons]
      simp only [if_pos hp]
      simp only [dictLookup, if_neg h1, if_neg h2]
      exact ih
    · rw [List.map_cons]
      simp only [if_neg hp]
      simp only [dictLookup]
      by_cases hpk : a = k'
      · simp [hpk]
      · simp only [if_neg hpk]
        exact ih

theorem lookup_append_single {α : Type} (k k' : String) (v : α)
    (d : List (String × α)) (h : d.any (fun p => p.1 = k) = false) :
    dictLookup (d ++ [(k, v)]) k' =
      if k' = k then some v else dictLookup d k' := by
  induction d with
  | nil =>
    by_cases hk : k' = k
    · simp [dictLookup, hk]
    · have hk2 : ¬ (k = k') := fun he => hk he.symm
      simp [dictLookup, hk, hk2]
  | cons p rest ih =>
    obtain ⟨a, b⟩ := p
    simp only [List.any_cons, Bool.or_eq_false_iff, decide_eq_false_iff_not] at h
    by_cases hpk : a = k'
    · have hk : ¬ (k' = k) := fun he => h.1 (hpk.trans he)
      simp [dictLookup, hpk, hk]
    · simp only [List.cons_append, List.append_eq, dictLookup, if_neg hpk]
      rw [ih h.2]

theorem dictLookup_dictSet {α : Type} (d : List (String × α)) (k k' : String)
    (v : α) :
    dictLookup (dictSet d k v) k' = if k' = k then some v else dictLookup d k' := by
  unfold dictSet
  cases hb : d.any (fun p => p.1 = k) with
  | true =>
    rw [if_pos rfl]
    by_cases hk : k' = k
    · subst hk
      rw [if_pos rfl]
      exact lookup_mapSet_self k' v d hb
    · rw [if_neg hk]
      exact lookup_mapSet_other k k' v hk d
  | false =>
    rw [if_neg (by simp)]
    exact lookup_append_single k k' v d hb

theorem dictLookup_dictSet_self {α : Type} (d : List (String × α)) (k : String)
    (v : α) : dictLookup (dictSet d k v) k = some v := by
  rw [dictLookup_dictSet]
  exact if_pos rfl

theorem dictLookup_dictSet_other {α : Type} (d : List (String × α))
    (k k' : String) (v : α) (hk : k' ≠ k) :
    dictLookup (dictSet d k v) k' = dictLookup d k' := by
  rw [dictLookup_dictSet]
  exact if_neg hk

theorem dictUpdate_cons {α : Type} (d : List (String × α)) (p : String × α)
    (m : List (String × α)) :
    dictUpdate d (p :: m) = dictUpdate (dictSet d p.1 p.2) m := rfl

theorem dictLookup_dictUpdate_not_key {α : Type} (m : List (String × α))
    (d : List (String × α)) (n : String) (h : ∀ p ∈ m, p.1 ≠ n) :
    dictLookup (dictUpdate d m) n = dictLookup d n := by
  induction m generalizing d with
  | nil => rfl
  | cons p m' ih =>
    rw [dictUpdate_cons, ih _ (fun q hq => h q (List.mem_cons_of_mem p hq))]
    exact dictLookup_dictSet_other d p.1 n p.2 (fun he => h p (List.mem_cons_self p m') he.symm)

theorem dictLookup_eq_none_iff {α : Type} (d : List (String × α)) (n : String) :
    dictLookup d n = Option.none ↔ ∀ p ∈ d, p.1 ≠ n := by
  induction d with
  | nil => simp [dictLookup]
  | cons p rest ih =>
    obtain ⟨a, b⟩ := p
    by_cases ha : a = n
    · simp [dictLookup, ha]
    · simp [dictLookup, ha, ih]

theorem dictLookup_dictUpdate_key {α : Type} (m : List (String × α))
    (d : List (String × α)) (n : String) (v : α) (hnd : NoDupKeys m)
    (h : dictLookup m n = some v) :
    dictLookup (dictUpdate d m) n = some v := by
  induction m generalizing d with
  | nil => simp [dictLookup] at h
  | cons p m' ih =>
    obtain ⟨a, b⟩ := p
    rw [dictUpdate_cons]
    unfold NoDupKeys at hnd
    simp only [List.map_cons, List.nodup_cons] at hnd
    by_cases ha : a = n
    · subst ha
      simp only [dictLookup, if_pos rfl] at h
      have hnot : ∀ q ∈ m', q.1 ≠ a := by
        intro q hq he
        exact hnd.1 (he ▸ List.mem_map_of_mem Prod.fst hq)
      rw [dictLookup_dictUpdate_not_key m' _ a hnot]
      rw [dictLookup_dictSet_self d a b]
      exact h
    · simp only [dictLookup, if_neg ha] at h
      exact ih _ hnd.2 h

/-- C7: a refresh of a conversation's entity mapping only merges: every
fetched (name, identifier) pair is present in the merged mapping (overwrite
on name collision), a name absent from the fetched map keeps its prior
binding (no entry is ever deleted), and when the fetch fails or returns
nothing (`fetchTemplateMap` yields the empty map) the conversation's prior
cache entries are left intact. -/
theorem c7_thm (st : OrchState) (toolCalls : List ToolCallRecord)
    (fetchRows : Option (List (String × String))) (conv : String)
    (hTemplate : toolCalls.any
      (fun c => templateCallToolNames.contains c.tool) = true)
    (hnd : NoDupKeys (fetchTemplateMap (fetchRows.getD []))) :
    (∀ n v, dictLookup (fetchTemplateMap (fetchRows.getD [])) n = some v →
      dictLookup ((dictLookup
        (extractAndStoreTemplateIds st toolCalls fetchRows conv).templateIds
          conv).getD []) n = some v) ∧
    (∀ n, dictLookup (fetchTemplateMap (fetchRows.getD [])) n = Option.none →
      dictLookup ((dictLookup
        (extractAndStoreTemplateIds st toolCalls fetchRows conv).templateIds
          conv).getD []) n =
      dictLookup ((dictLookup st.templateIds conv).getD []) n) := by
  unfold extractAndStoreTemplateIds
  simp only [hTemplate, not_true, Bool.not_eq_true, Bool.true_eq_false, if_false]
  have hbase :
      (dictLookup (if dictHasKey st.templateIds conv = true then st.templateIds
        else dictSet st.templateIds conv []) conv).getD [] =
      (dictLookup st.templateIds conv).getD [] := by
    by_cases hk : dictHasKey st.templateIds conv = true
    · rw [if_pos hk]
    · rw [if_neg hk]
      rw [dictLookup_dictSet_self]
      unfold dictHasKey at hk
      cases hl : dictLookup st.templateIds conv with
      | none => rfl
      | some x => rw [hl] at hk; simp at hk
  by_cases hemp : (fetchTemplateMap (fetchRows.getD [])).isEmpty = true
  · rw [if_pos hemp]
    constructor
    · intro n v hv
      rw [List.isEmpty_iff.mp hemp] at hv
      simp [dictLookup] at hv
    · intro n _
      simp only []
      rw [hbase]
  · rw [if_neg hemp]
    constructor
    · intro n v hv
      simp only []
      rw [dictLookup_dictSet_self]
      simp only [Option.getD_some]
      exact dictLookup_dictUpdate_key _ _ n v hnd hv
    · intro n hn
      simp only []
      rw [dictLookup_dictSet_self]
      simp only [Option.getD_some]
      rw [dictLookup_dictUpdate_not_key _ _ n
        ((dictLookup_eq_none_iff _ n).mp hn)]
      rw [hbase]

def c7St : OrchState := ⟨[], [("conv1", [("Old", "1-1"), ("NDA", "old-guid")])], []⟩

def c7Calls : List ToolCallRecord := [⟨"wesign_list_templates", "execute", [], "completed"⟩]

def c7Rows : Option (List (String × String)) := some [("NDA", "new-guid"), ("Fresh", "2-2")]

/-- C7, witness: the theorem applied to a concrete state where the refresh
overwrites one existing name and preserves another. -/
theorem c7_witness :
    dictLookup ((dictLookup
      (extractAndStoreTemplateIds c7St c7Calls c7Rows "conv1").templateIds
        "conv1").getD []) "NDA" = some "new-guid" ∧
    dictLookup ((dictLookup
      (extractAndStoreTemplateIds c7St c7Calls c7Rows "conv1").templateIds
        "conv1").getD []) "Old" = some "1-1" :=
  ⟨(c7_thm c7St c7Calls c7Rows "conv1" rfl
      (by unfold NoDupKeys; decide)).1 "NDA" "new-guid" rfl,
   ((c7_thm c7St c7Calls c7Rows "conv1" rfl
      (by unfold NoDupKeys; decide)).2 "Old" rfl).trans rfl⟩

def noPatternMatches (tids : List (String × String)) (s : String) : Bool :=
  tids.all (fun p => (patternsFor p.1.toList).all
    (fun pat => (scanMatch pat s.toList).isNone))

theorem applyPattern_no_match (name id : List Char) (pat : List RTok)
    (s : List Char) (h : scanMatch pat s = Option.none) :
    applyPattern name id pat s = s := by
  unfold applyPattern
  rw [h]

theorem foldl_applyPattern_id (name id : List Char) (pats : List (List RTok))
    (s : List Char) (h : ∀ pat ∈ pats, (scanMatch pat s).isNone = true) :
    pats.foldl (fun acc pat => applyPattern name id pat acc) s = s := by
  induction pats with
  | nil => rfl
  | cons p ps ih =>
    rw [List.foldl_cons,
      applyPattern_no_match name id p s
        (Option.isNone_iff_eq_none.mp (h p (List.mem_cons_self p ps)))]
    exact ih (fun pat hp => h pat (List.mem_cons_of_mem p hp))

theorem string_mk_toList (s : String) : String.mk s.toList = s := rfl

theorem substituteNames_id (tids : List (String × String)) (m : String)
    (h : noPatternMatches tids m = true) : substituteNames tids m = m := by
  unfold substituteNames
  unfold noPatternMatches at h
  rw [List.all_eq_true] at h
  have : tids.foldl (fun acc p => applyName p.1.toList p.2.toList acc) m.toList
      = m.toList := by
    induction tids with
    | nil => rfl
    | cons p ps ih =>
      rw [List.foldl_cons]
      have hp := h p (List.mem_cons_self p ps)
      rw [List.all_eq_true] at hp
      have : applyName p.1.toList p.2.toList m.toList = m.toList :=
        foldl_applyPattern_id p.1.toList p.2.toList _ m.toList hp
      rw [this]
      exact ih (fun q hq => h q (List.mem_cons_of_mem p hq))
  rw [this]
  exact string_mk_toList m

/-- C3 (amended): template-name substitution is idempotent for every cached
mapping state and message whose once-substituted form no longer matches any
cached name's surrounding-phrase patterns (`noPatternMatches`).  The
unconditional claim is false: a canonical identifier that extends a cached
name across a word boundary is re-substituted (see the counterexample). -/
theorem c3_thm (store : List (String × List (String × String)))
    (conv m : String)
    (h : noPatternMatches ((dictLookup store conv).getD [])
      (preprocessTemplateReferences store conv m) = true) :
    preprocessTemplateReferences store conv
      (preprocessTemplateReferences store conv m) =
    preprocessTemplateReferences store conv m := by
  cases hl : dictLookup store conv with
  | none =>
    have hid : ∀ x, preprocessTemplateReferences store conv x = x := by
      intro x
      unfold preprocessTemplateReferences
      rw [hl]
    rw [hid, hid]
  | some tids =>
    by_cases he : tids.isEmpty = true
    · have hid : ∀ x, preprocessTemplateReferences store conv x = x := by
        intro x
        unfold preprocessTemplateReferences
        rw [hl]
        simp [he]
      rw [hid, hid]
    · have hstep : ∀ x, preprocessTemplateReferences store conv x =
          substituteNames tids x := by
        intro x
        unfold preprocessTemplateReferences
        rw [hl]
        simp [he]
      rw [hl] at h
      rw [hstep] at h
      rw [hstep, hstep]
      exact substituteNames_id tids _ h

set_option maxRecDepth 8192 in
/-- C3, counterexample to the claim as stated: with the cached mapping
`{"1111": "1111-2222"}`, substituting `"use template 1111"` once yields
`"use template 1111-2222"`, and substituting again yields
`"use template 1111-2222-2222"` — the already-substituted identifier is
re-substituted, so `substitute` is not idempotent. -/
theorem c3_counterexample :
    preprocessTemplateReferences [("conv1", [("1111", "1111-2222")])] "conv1"
      "use template 1111" = "use template 1111-2222" ∧
    preprocessTemplateReferences [("conv1", [("1111", "1111-2222")])] "conv1"
      (preprocessTemplateReferences [("conv1", [("1111", "1111-2222")])] "conv1"
        "use template 1111") ≠
    preprocessTemplateReferences [("conv1", [("1111", "1111-2222")])] "conv1"
      "use template 1111" := by
  constructor
  · decide
  · decide

set_option maxRecDepth 8192 in
/-- C3, witness: the amended theorem applied to a concrete mapping whose
identifier does not contain the friendly name. -/
theorem c3_witness :
    preprocessTemplateReferences [("conv1", [("NDA", "77777777-aaaa")])] "conv1"
      (preprocessTemplateReferences [("conv1", [("NDA", "77777777-aaaa")])]
        "conv1" "use template NDA") =
    preprocessTemplateReferences [("conv1", [("NDA", "77777777-aaaa")])] "conv1"
      "use template NDA" :=
  c3_thm [("conv1", [("NDA", "77777777-aaaa")])] "conv1" "use template NDA"
    (by decide)

theorem extractAndStore_conversations (st : OrchState)
    (tc : List ToolCallRecord) (fr : Option (List (String × String)))
    (conv : String) :
    (extractAndStoreTemplateIds st tc fr conv).conversations =
      st.conversations := by
  simp only [extractAndStoreTemplateIds]
  repeat first | rfl | split

theorem lookup_ensure_key {α : Type} (d : List (String × List α)) (c : String) :
    (dictLookup (if dictHasKey d c = true then d else dictSet d c []) c).getD []
      = (dictLookup d c).getD [] := by
  by_cases hk : dictHasKey d c = true
  · rw [if_pos hk]
  · rw [if_neg hk, dictLookup_dictSet_self]
    unfold dictHasKey at hk
    cases hl : dictLookup d c with
    | none => rfl
    | some x => rw [hl] at hk; simp at hk

theorem lookup_appendTurns_self (conversations : List (String × List Turn))
    (c : String) (uc rt : String) (tcs : List ToolCallRecord) (now : String) :
    dictLookup (appendTurns conversations c uc rt tcs now) c =
      some (((dictLookup conversations c).getD []) ++
        [⟨"user", uc, Option.none, now⟩, ⟨"assistant", rt, some tcs, now⟩]) := by
  unfold appendTurns
  rw [dictLookup_dictSet_self]

theorem processMessage_history_ok (st : OrchState) (inp : PMInput)
    (o : CallOracles) (c : String) (hc : inp.conversationId = some c)
    (hcne : c ≠ "") (hag : ∃ v, o.agent = .ok v)
    (hfm : ∃ t, o.formatter = .ok t) :
    ∃ resp tcs,
      dictLookup (processMessage st inp o).2.conversations c =
        some (((dictLookup st.conversations c).getD []) ++
          [⟨"user", inp.message, Option.none, o.now⟩,
           ⟨"assistant", resp, some tcs, o.now⟩]) := by
  obtain ⟨⟨events, raw⟩, hagv⟩ := hag
  obtain ⟨ftxt, hfmv⟩ := hfm
  unfold processMessage
  rw [hc, hagv, hfmv]
  simp only [if_neg hcne]
  split
  · exact ⟨raw, _, by rw [lookup_appendTurns_self, lookup_ensure_key]⟩
  · split
    · exact ⟨_, _, by rw [lookup_appendTurns_self, lookup_ensure_key]⟩
    · refine ⟨ftxt,
        events.map (fun ev => ⟨ev.1, "execute", ev.2, "completed"⟩), ?_⟩
      rw [extractAndStore_conversations, lookup_appendTurns_self,
        lookup_ensure_key]

theorem prefix_getElem? {α : Type} {l1 l2 : List α} (h : l1 <+: l2) {i : Nat}
    (hi : i < l1.length) : l2[i]? = l1[i]? := by
  obtain ⟨t, rfl⟩ := h
  exact List.getElem?_append_left hi

/-- C9 (amended): after `process_message` has completed N times against one
conversation identity with none of the calls taking the top-level exception
path, the conversation history holds exactly its prior length plus 2N turns,
the prior history is preserved unchanged as a prefix (no past turn mutated),
and the k-th request contributed a user turn carrying its message followed
by an assistant turn, in call order.  The correction: a call that takes the
exception path appends no turns (see the counterexample). -/
theorem c9_thm (calls : List (PMInput × CallOracles)) (st : OrchState)
    (c : String) (hcne : c ≠ "")
    (hcalls : ∀ p ∈ calls, p.1.conversationId = some c ∧
      (∃ v, p.2.agent = .ok v) ∧ (∃ t, p.2.formatter = .ok t)) :
    (getConversationHistory (runCalls st calls) c).length =
      (getConversationHistory st c).length + 2 * calls.length ∧
    getConversationHistory st c <+: getConversationHistory (runCalls st calls) c ∧
    ∀ k, (hk : k < calls.length) →
      ((getConversationHistory (runCalls st calls) c)[
          (getConversationHistory st c).length + 2 * k]?).map Turn.role =
        some "user" ∧
      ((getConversationHistory (runCalls st calls) c)[
          (getConversationHistory st c).length + 2 * k]?).map Turn.content =
        some (calls[k].1.message) ∧
      ((getConversationHistory (runCalls st calls) c)[
          (getConversationHistory st c).length + 2 * k + 1]?).map Turn.role =
        some "assistant" := by
  induction calls generalizing st with
  | nil =>
    refine ⟨by simp [runCalls], List.prefix_rfl, fun k hk => absurd hk (by simp)⟩
  | cons p rest ih =>
    obtain ⟨hc, hag, hfm⟩ := hcalls p (List.mem_cons_self p rest)
    obtain ⟨resp, tcs, hlook⟩ :=
      processMessage_history_ok st p.1 p.2 c hc hcne hag hfm
    have hrun : runCalls st (p :: rest) =
        runCalls (processMessage st p.1 p.2).2 rest := rfl
    have hist' : getConversationHistory (processMessage st p.1 p.2).2 c =
        getConversationHistory st c ++
          [⟨"user", p.1.message, Option.none, p.2.now⟩,
           ⟨"assistant", resp, some tcs, p.2.now⟩] := by
      unfold getConversationHistory
      rw [hlook]
      rfl
    obtain ⟨ihlen, ihpre, ihidx⟩ :=
      ih (processMessage st p.1 p.2).2 (fun q hq => hcalls q (List.mem_cons_of_mem p hq))
    refine ⟨?_, ?_, ?_⟩
    · rw [hrun, ihlen, hist']
      simp only [List.length_append, List.length_cons, List.length_nil]
      omega
    · have h1 : getConversationHistory st c <+:
          getConversationHistory (processMessage st p.1 p.2).2 c := by
        rw [hist']
        exact List.prefix_append _ _
      rw [hrun]
      exact h1.trans ihpre
    · intro k hk
      cases k with
      | zero =>
        have hl2 : (getConversationHistory st c).length + 2 * 0 + 1 <
            (getConversationHistory (processMessage st p.1 p.2).2 c).length := by
          rw [hist']
          simp only [List.length_append, List.length_cons, List.length_nil]
          omega
        have hl1 : (getConversationHistory st c).length + 2 * 0 <
            (getConversationHistory (processMessage st p.1 p.2).2 c).length := by
          omega
        rw [hrun, prefix_getElem? ihpre hl1, prefix_getElem? ihpre hl2]
        rw [hist']
        have e1 : (getConversationHistory st c).length + 2 * 0 =
            (getConversationHistory st c).length + 0 := by omega
        have e2 : (getConversationHistory st c).length + 2 * 0 + 1 =
            (getConversationHistory st c).length + 1 := by omega
        rw [e1, e2]
        rw [List.getElem?_append_right (by omega), List.getElem?_append_right (by omega)]
        simp
      | succ j =>
        have hj : j < rest.length := by
          simpa using Nat.lt_of_succ_lt_succ (by simpa using hk)
        have e1 : (getConversationHistory st c).length + 2 * (j + 1) =
            (getConversationHistory (processMessage st p.1 p.2).2 c).length +
              2 * j := by
          rw [hist']
          simp only [List.length_append, List.length_cons, List.length_nil]
          omega
        obtain ⟨i1, i2, i3⟩ := ihidx j hj
        rw [hrun, e1]
        refine ⟨i1, ?_, i3⟩
        rw [i2]
        simp

def c9GoodCall : PMInput × CallOracles :=
  (⟨"hi", "u1", "co1", "n1", some "conv1", []⟩,
   ⟨.ok ([], "all good"), .ok "x", Option.none, "fresh1", "t0"⟩)

def c9BadCall : PMInput × CallOracles :=
  (⟨"hi", "u1", "co1", "n1", some "conv1", []⟩,
   ⟨.error "boom", .ok "x", Option.none, "fresh1", "t0"⟩)

/-- C9, counterexample to the claim as stated: one completed
`process_message` call whose agent run raises appends no turns, so the
history has 0 turns, not 2·1. -/
theorem c9_counterexample :
    (getConversationHistory (runCalls OrchState.empty [c9BadCall]) "conv1").length
      = 0 ∧ (0 : Nat) ≠ 2 * 1 :=
  ⟨rfl, by decide⟩

/-- C9, witness: the amended theorem applied to one concrete
exception-free call. -/
theorem c9_witness :
    (getConversationHistory (runCalls OrchState.empty [c9GoodCall]) "conv1").length
      = (getConversationHistory OrchState.empty "conv1").length + 2 * 1 :=
  (c9_thm [c9GoodCall] OrchState.empty "conv1" (by decide)
    (by
      intro q hq
      simp only [List.mem_singleton] at hq
      subst hq
      exact ⟨rfl, ⟨_, rfl⟩, ⟨_, rfl⟩⟩)).1

theorem ciPrefixB_mem (t l : List Char) (h : ciPrefixB t l = true) :
    ∀ c ∈ t, ∃ d ∈ l, asciiLower d = asciiLower c := by
  induction t generalizing l with
  | nil => intro c hc; simp at hc
  | cons a ts ih =>
    cases l with
    | nil => simp [ciPrefixB] at h
    | cons b ls =>
      simp only [ciPrefixB, Bool.and_eq_true, decide_eq_true_eq] at h
      intro c hc
      rcases List.mem_cons.mp hc with rfl | hc'
      · exact ⟨b, List.mem_cons_self b ls, h.1.symm⟩
      · obtain ⟨d, hd, he⟩ := ih ls h.2 c hc'
        exact ⟨d, List.mem_cons_of_mem b hd, he⟩

theorem occursCIB_mem (t l : List Char) (h : occursCIB t l = true) :
    ∀ c ∈ t, ∃ d ∈ l, asciiLower d = asciiLower c := by
  induction l with
  | nil =>
    intro c hc
    unfold occursCIB at h
    obtain ⟨d, hd, _⟩ := ciPrefixB_mem t [] h c hc
    simp at hd
  | cons b ls ih =>
    intro c hc
    unfold occursCIB at h
    rcases Bool.or_eq_true_iff.mp h with h1 | h2
    · exact ciPrefixB_mem t (b :: ls) h1 c hc
    · obtain ⟨d, hd, he⟩ := ih h2 c hc
      exact ⟨d, List.mem_cons_of_mem b hd, he⟩

theorem ciPrefixB_occurs (t l : List Char) (h : ciPrefixB t l = true) :
    occursCIB t l = true := by
  cases l with
  | nil => exact h
  | cons b ls => unfold occursCIB; rw [h]; rfl

theorem occursCIB_tail (t : List Char) (b : Char) (ls : List Char)
    (h : occursCIB t ls = true) : occursCIB t (b :: ls) = true := by
  unfold occursCIB
  rw [h]
  simp

theorem occursCIB_drop (t l : List Char) (j : Nat)
    (h : occursCIB t (l.drop j) = true) : occursCIB t l = true := by
  induction j generalizing l with
  | zero => simpa using h
  | succ j ih =>
    cases l with
    | nil => simpa using h
    | cons b ls =>
      rw [List.drop_succ_cons] at h
      exact occursCIB_tail t b ls (ih ls h)

theorem matchTokens_lit_occurs (pats : List RTok) (prev : Option Char)
    (l : List Char) (k : Nat) (h : matchTokens pats prev l = some k)
    (t : List Char) (ht : RTok.lit t ∈ pats) : occursCIB t l = true := by
  induction pats generalizing prev l k with
  | nil => simp at ht
  | cons tok rest ih =>
    cases tok with
    | wb =>
      rw [matchTokens] at h
      rcases List.mem_cons.mp ht with he | ht'
      · exact absurd he (by simp)
      · split at h
        · exact ih _ _ _ h ht'
        · exact absurd h (by simp)
    | lit s =>
      rw [matchTokens] at h
      split at h
      case isTrue hpre =>
        rcases List.mem_cons.mp ht with he | ht'
        · have : t = s := by injection he
          subst this
          exact ciPrefixB_occurs t l hpre
        · obtain ⟨k', hk', _⟩ := Option.map_eq_some'.mp h
          exact occursCIB_drop t l s.length (ih _ _ _ hk' ht')
      case isFalse => exact absurd h (by simp)
    | ws =>
      rw [matchTokens] at h
      rcases List.mem_cons.mp ht with he | ht'
      · exact absurd he (by simp)
      · obtain ⟨d, _, hd⟩ := List.exists_of_findSome?_eq_some h
        obtain ⟨k', hk', _⟩ := Option.map_eq_some'.mp hd
        exact occursCIB_drop t l _ (ih _ _ _ hk' ht')
    | optQ =>
      rcases List.mem_cons.mp ht with he | ht'
      · exact absurd he (by simp)
      · cases l with
        | nil =>
          rw [matchTokens] at h
          exact ih _ _ _ h ht'
        | cons c cs =>
          rw [matchTokens] at h
          split at h
          case isTrue =>
            rcases (Option.orElse_eq_some' _ _ _).mp h with h1 | ⟨_, h2⟩
            · obtain ⟨k', hk', _⟩ := Option.map_eq_some'.mp h1
              exact occursCIB_tail t c cs (ih _ _ _ hk' ht')
            · exact ih _ _ _ h2 ht'
          case isFalse => exact ih _ _ _ h ht'

theorem scanMatchAux_lit_occurs (pat : List RTok) (prev : Option Char)
    (l : List Char) (r : Nat × Nat) (h : scanMatchAux pat prev l = some r)
    (t : List Char) (ht : RTok.lit t ∈ pat) : occursCIB t l = true := by
  induction l generalizing prev r with
  | nil =>
    rw [scanMatchAux] at h
    split at h
    case h_1 k hk => exact matchTokens_lit_occurs pat prev [] k hk t ht
    case h_2 => exact absurd h (by simp)
  | cons c cs ih =>
    rw [scanMatchAux] at h
    split at h
    case h_1 k hk => exact matchTokens_lit_occurs pat prev (c :: cs) k hk t ht
    case h_2 =>
      obtain ⟨r', hr', _⟩ := Option.map_eq_some'.mp h
      exact occursCIB_tail t c cs (ih _ _ hr')

theorem scanMatch_none_of_no_occurs (pat : List RTok) (l : List Char)
    (t : List Char) (ht : RTok.lit t ∈ pat) (h : occursCIB t l = false) :
    scanMatch pat l = Option.none := by
  cases hm : scanMatch pat l with
  | none => rfl
  | some r =>
    rw [scanMatchAux_lit_occurs pat Option.none l r hm t ht] at h
    exact absurd h (by simp)

theorem asciiLower_digit_hyphen (d : Char) (hd : d.isDigit = true ∨ d = '-') :
    asciiLower d = d := by
  rcases hd with hd | rfl
  · unfold asciiLower
    rw [if_neg]
    rintro ⟨h1, _⟩
    unfold Char.isDigit at hd
    simp only [Bool.and_eq_true, decide_eq_true_eq] at hd
    have h2 : d.toNat ≤ 57 := hd.2
    have h3 : 65 ≤ d.toNat := h1
    omega
  · decide

theorem digit_hyphen_ne (d : Char) (hd : d.isDigit = true ∨ d = '-')
    (c : Char) (hc1 : c.isDigit = false) (hc2 : c ≠ '-') : d ≠ c := by
  rintro rfl
  rcases hd with hd | rfl
  · rw [hd] at hc1; exact absurd hc1 (by simp)
  · exact hc2 rfl

theorem missing_char_in_extension (g : List Char)
    (hg : ∀ d ∈ g, d.isDigit = true ∨ d = '-') (c : Char)
    (hc1 : c.isDigit = false) (hc2 : c ≠ '-') (hc3 : asciiLower c = c)
    (hpre : ∀ d ∈ ("use template ".toList), asciiLower d ≠ asciiLower c) :
    ∀ d ∈ ("use template ".toList ++ g), asciiLower d ≠ asciiLower c := by
  intro d hd
  rcases List.mem_append.mp hd with hd1 | hd2
  · exact hpre d hd1
  · rw [asciiLower_digit_hyphen d (hg d hd2), hc3]
    exact digit_hyphen_ne d (hg d hd2) c hc1 hc2

theorem occursCIB_false_of_missing (t l : List Char) (c : Char) (hc : c ∈ t)
    (h : ∀ d ∈ l, asciiLower d ≠ asciiLower c) : occursCIB t l = false := by
  cases ho : occursCIB t l with
  | false => rfl
  | true =>
    obtain ⟨d, hd, he⟩ := occursCIB_mem t l ho c hc
    exact absurd he (h d hd)


set_option maxRecDepth 16384 in
/-- C4 helper: applying the first surrounding-phrase pattern to the
Scenario C message replaces the case-matching name occurrence with the
identifier and preserves the surrounding text. -/
theorem c4_pattern1_step (g : String) :
    applyPattern ("Employment Contract".toList) g.toList
      [RTok.wb, RTok.lit "template".toList, RTok.ws, RTok.optQ,
       RTok.lit ("Employment Contract".toList), RTok.optQ, RTok.wb]
      ("use template Employment Contract".toList) =
      "use template ".toList ++ g.toList := by
  have hscan : scanMatch
      [RTok.wb, RTok.lit "template".toList, RTok.ws, RTok.optQ,
       RTok.lit ("Employment Contract".toList), RTok.optQ, RTok.wb]
      ("use template Employment Contract".toList) = some (4, 28) := by decide
  have happ : applyPattern ("Employment Contract".toList) g.toList
      [RTok.wb, RTok.lit "template".toList, RTok.ws, RTok.optQ,
       RTok.lit ("Employment Contract".toList), RTok.optQ, RTok.wb]
      ("use template Employment Contract".toList) =
      ("use template Employment Contract".toList).take 4 ++
        pyReplace ((("use template Employment Contract".toList).drop 4).take 28)
          ("Employment Contract".toList) g.toList ++
        ("use template Employment Contract".toList).drop (4 + 28) := by
    unfold applyPattern
    rw [hscan]
  have h_take : ("use template Employment Contract".toList).take 4 =
      "use ".toList := by decide
  have h_span : (("use template Employment Contract".toList).drop 4).take 28 =
      "template Employment Contract".toList := by decide
  have h_drop : ("use template Employment Contract".toList).drop (4 + 28) =
      ([] : List Char) := by decide
  rw [h_take, h_span, h_drop] at happ
  have hrepl : pyReplace ("template Employment Contract".toList)
      ("Employment Contract".toList) g.toList =
      "template ".toList ++ (g.toList ++ []) := rfl
  rw [List.append_nil] at hrepl
  rw [hrepl, List.append_nil, ← List.append_assoc] at happ
  have hpre : "use ".toList ++ "template ".toList = "use template ".toList := by
    decide
  rw [hpre] at happ
  exact happ

set_option maxRecDepth 16384 in
set_option maxHeartbeats 1600000 in
/-- C4 (amended): when a conversation's cache maps a friendly name to a
canonical identifier and the message contains the name in pattern position
matching the cached spelling case-sensitively, `substitute` returns the
message with that occurrence replaced by the identifier and all surrounding
text preserved — shown for the Scenario C message `"use template Employment
Contract"` with an arbitrary digits-and-hyphens identifier.  The correction:
the surrounding-phrase patterns match case-insensitively, but the in-span
replacement is the case-sensitive `str.replace`, so a case-mismatched
occurrence is not replaced (see the counterexample). -/
theorem c4_thm (g : String)
    (hdig : ∀ d ∈ g.toList, d.isDigit = true ∨ d = '-') :
    preprocessTemplateReferences [("conv1", [("Employment Contract", g)])]
      "conv1" "use template Employment Contract" = "use template " ++ g := by
  have hred1 : preprocessTemplateReferences
      [("conv1", [("Employment Contract", g)])] "conv1"
      "use template Employment Contract" =
      substituteNames [("Employment Contract", g)]
        "use template Employment Contract" := rfl
  have hred2 : substituteNames [("Employment Contract", g)]
      "use template Employment Contract" =
      String.mk (applyName ("Employment Contract".toList) g.toList
        ("use template Employment Contract".toList)) := by
    unfold substituteNames
    simp only [List.foldl_cons, List.foldl_nil]
  rw [hred1, hred2]
  have h2 : scanMatch
      [RTok.wb, RTok.lit "from".toList, RTok.ws, RTok.lit "template".toList,
       RTok.ws, RTok.optQ, RTok.lit ("Employment Contract".toList), RTok.optQ,
       RTok.wb] ("use template ".toList ++ g.toList) = Option.none :=
    scanMatch_none_of_no_occurs _ _ ("from".toList) (by decide)
      (occursCIB_false_of_missing _ _ 'f' (by decide)
        (missing_char_in_extension g.toList hdig 'f' (by decide) (by decide)
          (by decide) (by decide)))
  have h3 : scanMatch
      [RTok.wb, RTok.lit "template".toList, RTok.ws, RTok.lit "named".toList,
       RTok.ws, RTok.optQ, RTok.lit ("Employment Contract".toList), RTok.optQ,
       RTok.wb] ("use template ".toList ++ g.toList) = Option.none :=
    scanMatch_none_of_no_occurs _ _ ("named".toList) (by decide)
      (occursCIB_false_of_missing _ _ 'n' (by decide)
        (missing_char_in_extension g.toList hdig 'n' (by decide) (by decide)
          (by decide) (by decide)))
  have h4 : scanMatch
      [RTok.wb, RTok.lit "my".toList, RTok.ws, RTok.optQ,
       RTok.lit ("Employment Contract".toList), RTok.optQ, RTok.ws,
       RTok.lit "template".toList, RTok.wb]
      ("use template ".toList ++ g.toList) = Option.none :=
    scanMatch_none_of_no_occurs _ _ ("my".toList) (by decide)
      (occursCIB_false_of_missing _ _ 'y' (by decide)
        (missing_char_in_extension g.toList hdig 'y' (by decide) (by decide)
          (by decide) (by decide)))
  have h5 : scanMatch
      [RTok.wb, RTok.lit "the".toList, RTok.ws, RTok.optQ,
       RTok.lit ("Employment Contract".toList), RTok.optQ, RTok.ws,
       RTok.lit "template".toList, RTok.wb]
      ("use template ".toList ++ g.toList) = Option.none :=
    scanMatch_none_of_no_occurs _ _ ("the".toList) (by decide)
      (occursCIB_false_of_missing _ _ 'h' (by decide)
        (missing_char_in_extension g.toList hdig 'h' (by decide) (by decide)
          (by decide) (by decide)))
  have h6 : scanMatch
      [RTok.wb, RTok.lit "תבנית".toList, RTok.ws, RTok.optQ,
       RTok.lit ("Employment Contract".toList), RTok.optQ, RTok.wb]
      ("use template ".toList ++ g.toList) = Option.none :=
    scanMatch_none_of_no_occurs _ _ ("תבנית".toList) (by decide)
      (occursCIB_false_of_missing _ _ 'ת' (by decide)
        (missing_char_in_extension g.toList hdig 'ת' (by decide) (by decide)
          (by decide) (by decide)))
  have h7 : scanMatch
      [RTok.wb, RTok.lit "מתבנית".toList, RTok.ws, RTok.optQ,
       RTok.lit ("Employment Contract".toList), RTok.optQ, RTok.wb]
      ("use template ".toList ++ g.toList) = Option.none :=
    scanMatch_none_of_no_occurs _ _ ("מתבנית".toList) (by decide)
      (occursCIB_false_of_missing _ _ 'מ' (by decide)
        (missing_char_in_extension g.toList hdig 'מ' (by decide) (by decide)
          (by decide) (by decide)))
  unfold applyName patternsFor
  simp only [List.foldl_cons, List.foldl_nil]
  rw [c4_pattern1_step g]
  rw [applyPattern_no_match _ _ _ _ h2, applyPattern_no_match _ _ _ _ h3,
    applyPattern_no_match _ _ _ _ h4, applyPattern_no_match _ _ _ _ h5,
    applyPattern_no_match _ _ _ _ h6, applyPattern_no_match _ _ _ _ h7]
  cases g with
  | mk l => rfl

set_option maxRecDepth 16384 in
/-- C4, counterexample to the claim as stated: the cached name
`"Employment Contract"` occurs (case-insensitively) in pattern position in
`"use template employment contract"` — the pattern does match — yet
`substitute` returns the message unchanged instead of replacing the
occurrence with the identifier, because `str.replace` is case-sensitive. -/
theorem c4_counterexample :
    preprocessTemplateReferences
      [("conv1", [("Employment Contract",
        "11111111-1111-1111-1111-111111111111")])] "conv1"
      "use template employment contract" =
      "use template employment contract" ∧
    ((patternsFor ("Employment Contract".toList)).any
      (fun pat =>
        (scanMatch pat ("use template employment contract".toList)).isSome))
      = true ∧
    ("use template employment contract" : String) ≠
      "use template 11111111-1111-1111-1111-111111111111" := by
  refine ⟨?_, ?_, ?_⟩ <;> decide

/-- C4, witness: the amended theorem applied at the concrete Scenario C
identifier. -/
theorem c4_witness :
    preprocessTemplateReferences [("conv1", [("Employment Contract",
      "11111111-1111-1111-1111-111111111111")])] "conv1"
      "use template Employment Contract" =
      "use template " ++ "11111111-1111-1111-1111-111111111111" :=
  c4_thm "11111111-1111-1111-1111-111111111111" (by decide)
